import Mathlib

/-!
Shallow embedding of `stillya/testcontainers-keycloak` (Go).

The repository has two generations of `keycloak.go`; the current one
(Keycloak 24, TLS / providers / default wait strategy) is embedded at top
level, and the older variant of `WithRealmImportFile` (the one that resolves
the host path with `filepath.Abs` and silently returns on failure) is
embedded in the `Legacy` namespace.  `admin.go` (the admin REST client) is
embedded with its external effects — HTTP POST/GET and JSON decoding —
passed in as explicit function parameters, so every definition stays
executable and the pure control flow of the Go code (error propagation,
linear scan, header construction) is preserved verbatim.
-/

/-! ## Constants (`keycloak.go`) -/

def defaultKeycloakImage : String := "quay.io/keycloak/keycloak:24.0"

def defaultRealmImport : String := "/opt/keycloak/data/import/"

def defaultProviders : String := "/opt/keycloak/providers/"

def tlsFilePath : String := "/opt/keycloak/conf"

def defaultKeycloakAdminUsername : String := "admin"

def defaultKeycloakAdminPassword : String := "admin"

def defaultKeycloakContextPath : String := "/"

def keycloakAdminUsernameEnv : String := "KEYCLOAK_ADMIN"

def keycloakAdminPasswordEnv : String := "KEYCLOAK_ADMIN_PASSWORD"

def keycloakContextPathEnv : String := "KEYCLOAK_CONTEXT_PATH"

def keycloakTlsEnv : String := "KEYCLOAK_TLS"

def keycloakStartupCommand : String := "start-dev"

def keycloakPort : String := "8080/tcp"

def keycloakHttpsPort : String := "8443/tcp"

/-! ## Environment map

Go's `map[string]string` is embedded as an association list with
update-in-place semantics; `envGet` returns the zero value `""` for an
absent key, exactly like a Go map read. -/

def envSet (env : List (String × String)) (k v : String) : List (String × String) :=
  match env with
  | [] => [(k, v)]
  | (k', v') :: rest => if k' = k then (k, v) :: rest else (k', v') :: envSet rest k v

def envGet (env : List (String × String)) (k : String) : String :=
  match env with
  | [] => ""
  | (k', v') :: rest => if k' = k then v' else envGet rest k

def envHas (env : List (String × String)) (k : String) : Bool :=
  match env with
  | [] => false
  | (k', _) :: rest => k' = k || envHas rest k

/-! ## Launch request (`testcontainers.GenericContainerRequest`)

Only the fields this repository reads or writes are carried. -/

structure ContainerFile where
  hostFilePath : String
  containerFilePath : String
  fileMode : Nat
  deriving DecidableEq, Repr

structure ContainerMount where
  hostPath : String
  target : String
  deriving DecidableEq, Repr

/-- `wait` strategies used by `RunContainer`: `wait.ForHTTP` (with optional
explicit port, TLS flag and allow-insecure flag — the latter two default to
`false`), `wait.ForLog`, and the binary `wait.ForAll` combination. -/
inductive WaitStrategy where
  | forHTTP (path : String) (port : Option String) (tls : Bool) (allowInsecure : Bool)
  | forLog (line : String)
  | forAll (first second : WaitStrategy)
  deriving DecidableEq, Repr

structure GenericContainerRequest where
  image : String
  env : List (String × String)
  exposedPorts : List String
  cmd : List String
  files : List ContainerFile
  mounts : List ContainerMount
  waitingFor : Option WaitStrategy
  started : Bool
  deriving DecidableEq, Repr

/-! ## Argument merge (`processKeycloakArgs`) -/

def processKeycloakArgs (cmd args : List String) : List String :=
  if cmd.length = 0 then
    keycloakStartupCommand :: args
  else if cmd.head? = some keycloakStartupCommand then
    cmd ++ args
  else
    (keycloakStartupCommand :: cmd) ++ args

def processKeycloakArgsReq (req : GenericContainerRequest) (args : List String) :
    GenericContainerRequest :=
  { req with cmd := processKeycloakArgs req.cmd args }

/-- Folding the merge helper over a sequence of appended flag groups, one
group per flag-appending option application. -/
def applyFlagGroups (cmd : List String) (gs : List (List String)) : List String :=
  gs.foldl processKeycloakArgs cmd

/-! ## Options (current generation, embedded from the v24 `keycloak.go`) -/

def WithRealmImportFile (realmImportFile : String) (baseName : String)
    (req : GenericContainerRequest) : GenericContainerRequest :=
  let realmFile : ContainerFile :=
    { hostFilePath := realmImportFile
      containerFilePath := defaultRealmImport ++ baseName
      fileMode := 0o755 }
  let req := { req with files := req.files ++ [realmFile] }
  processKeycloakArgsReq req ["--import-realm"]

def WithProviders (providerBaseNames : List (String × String))
    (req : GenericContainerRequest) : GenericContainerRequest :=
  { req with
    files := req.files ++ providerBaseNames.map (fun p =>
      { hostFilePath := p.1
        containerFilePath := defaultProviders ++ p.2
        fileMode := 0o755 }) }

def WithTLS (certFile keyFile : String) (req : GenericContainerRequest) :
    GenericContainerRequest :=
  let req := { req with exposedPorts := [keycloakHttpsPort] }
  let cf : ContainerFile :=
    { hostFilePath := certFile
      containerFilePath := tlsFilePath ++ "/tls.crt"
      fileMode := 0o755 }
  let kf : ContainerFile :=
    { hostFilePath := keyFile
      containerFilePath := tlsFilePath ++ "/tls.key"
      fileMode := 0o755 }
  let req := { req with files := req.files ++ [cf, kf] }
  let req := { req with env := envSet req.env keycloakTlsEnv "true" }
  processKeycloakArgsReq req
    ["--https-certificate-file=" ++ tlsFilePath ++ "/tls.crt",
     "--https-certificate-key-file=" ++ tlsFilePath ++ "/tls.key"]

def WithAdminUsername (username : String) (req : GenericContainerRequest) :
    GenericContainerRequest :=
  let username := if username = "" then defaultKeycloakAdminUsername else username
  { req with env := envSet req.env keycloakAdminUsernameEnv username }

def WithAdminPassword (password : String) (req : GenericContainerRequest) :
    GenericContainerRequest :=
  let password := if password = "" then defaultKeycloakAdminPassword else password
  { req with env := envSet req.env keycloakAdminPasswordEnv password }

def WithContextPath (contextPath : String) (req : GenericContainerRequest) :
    GenericContainerRequest :=
  let contextPath := if contextPath = "" then defaultKeycloakContextPath else contextPath
  let req := { req with env := envSet req.env keycloakContextPathEnv contextPath }
  processKeycloakArgsReq req ["--http-relative-path=" ++ contextPath]

namespace Legacy

/-- Older generation of `WithRealmImportFile` (`keycloak.go`, v20 variant):
it resolves `filepath.Abs(filepath.Dir(realmImportFile))` — an OS call whose
outcome is passed in here as `absResult` (`none` models a resolution
failure) — and on failure plainly `return`s, leaving the request untouched;
on success it registers a bind mount and appends `--import-realm`.  The
closure's type in that generation has no error return at all. -/
def WithRealmImportFile (absResult : Option String)
    (req : GenericContainerRequest) : GenericContainerRequest :=
  match absResult with
  | none => req
  | some absPath =>
      let importFile : ContainerMount := { hostPath := absPath, target := defaultRealmImport }
      let req := { req with mounts := req.mounts ++ [importFile] }
      processKeycloakArgsReq req ["--import-realm"]

end Legacy

/-! ## `RunContainer` -/

/-- The launch request `RunContainer` builds before applying options. -/
def initialRequest : GenericContainerRequest :=
  { image := defaultKeycloakImage
    env := [(keycloakAdminUsernameEnv, defaultKeycloakAdminUsername),
            (keycloakAdminPasswordEnv, defaultKeycloakAdminPassword)]
    exposedPorts := [keycloakPort]
    cmd := []
    files := []
    mounts := []
    waitingFor := none
    started := true }

/-- The readiness condition `RunContainer` installs when the caller supplied
none: an HTTP check on the recorded context path (over HTTPS on the TLS port
with insecure certificates allowed when TLS is on) combined with waiting for
the startup log line. -/
def defaultWaitStrategy (env : List (String × String)) : WaitStrategy :=
  let contextPath :=
    let c := envGet env keycloakContextPathEnv
    if c = "" then defaultKeycloakContextPath else c
  if envGet env keycloakTlsEnv ≠ "" then
    .forAll (.forHTTP contextPath (some keycloakHttpsPort) true true)
      (.forLog "Running the server")
  else
    .forAll (.forHTTP contextPath none false false) (.forLog "Running the server")

/-- The `if genericContainerReq.WaitingFor == nil` block of `RunContainer`. -/
def installWaitStrategy (req : GenericContainerRequest) : GenericContainerRequest :=
  match req.waitingFor with
  | some _ => req
  | none => { req with waitingFor := some (defaultWaitStrategy req.env) }

/-- `RunContainer` at the request level: apply the options in order to the
initial request, then install the default readiness condition if none was
supplied. -/
def runRequest (opts : List (GenericContainerRequest → GenericContainerRequest)) :
    GenericContainerRequest :=
  installWaitStrategy (opts.foldl (fun r o => o r) initialRequest)

/-! ## Container handle -/

structure KeycloakContainer where
  username : String
  password : String
  enableTLS : Bool
  contextPath : String
  deriving DecidableEq, Repr

/-- The `KeycloakContainer` value `RunContainer` builds from the final
request's environment. -/
def makeKeycloakContainer (req : GenericContainerRequest) : KeycloakContainer :=
  { username := envGet req.env keycloakAdminUsernameEnv
    password := envGet req.env keycloakAdminPasswordEnv
    contextPath := envGet req.env keycloakContextPathEnv
    enableTLS := envGet req.env keycloakTlsEnv ≠ "" }

/-- `GetAuthServerURL`.  Host and mapped-port resolution are runtime calls;
they are passed in as `host` and `mappedPort` (`none` models a resolution
failure, which the Go code propagates as an error). -/
def GetAuthServerURL (k : KeycloakContainer) (host : Option String)
    (mappedPort : String → Option String) : Option String :=
  match host with
  | none => none
  | some h =>
    if k.enableTLS then
      match mappedPort keycloakHttpsPort with
      | none => none
      | some p => some ("https://" ++ h ++ ":" ++ p ++ k.contextPath)
    else
      match mappedPort keycloakPort with
      | none => none
      | some p => some ("http://" ++ h ++ ":" ++ p ++ k.contextPath)

/-! ## Admin client (`admin.go`) -/

def adminClientID : String := "admin-cli"

def masterRealm : String := "master"

/-- `Token` (decoded JSON of the token endpoint response). -/
structure Token where
  accessToken : String := ""
  idToken : String := ""
  expiresIn : Int := 0
  refreshExpiresIn : Int := 0
  refreshToken : String := ""
  tokenType : String := ""
  notBeforePolicy : Int := 0
  sessionState : String := ""
  scope : String := ""
  deriving DecidableEq, Repr

/-- `Client` (Keycloak client representation).  Every Go field is a pointer
(`nil` ↔ `none`); `map[string]...` fields are association lists, and the
untyped JSON values of `access` are kept as strings, since no code in the
repository reads them. -/
structure Client where
  access : Option (List (String × String)) := none
  adminURL : Option String := none
  attributes : Option (List (String × String)) := none
  authenticationFlowBindingOverrides : Option (List (String × String)) := none
  authorizationServicesEnabled : Option Bool := none
  baseURL : Option String := none
  bearerOnly : Option Bool := none
  clientAuthenticatorType : Option String := none
  clientID : Option String := none
  consentRequired : Option Bool := none
  defaultClientScopes : Option (List String) := none
  defaultRoles : Option (List String) := none
  description : Option String := none
  directAccessGrantsEnabled : Option Bool := none
  enabled : Option Bool := none
  frontChannelLogout : Option Bool := none
  fullScopeAllowed : Option Bool := none
  id : Option String := none
  implicitFlowEnabled : Option Bool := none
  name : Option String := none
  nodeReRegistrationTimeout : Option Int := none
  notBefore : Option Int := none
  optionalClientScopes : Option (List String) := none
  origin : Option String := none
  protocol : Option String := none
  publicClient : Option Bool := none
  redirectURIs : Option (List String) := none
  registeredNodes : Option (List (String × Int)) := none
  registrationAccessToken : Option String := none
  rootURL : Option String := none
  secret : Option String := none
  serviceAccountsEnabled : Option Bool := none
  standardFlowEnabled : Option Bool := none
  surrogateAuthRequired : Option Bool := none
  webOrigins : Option (List String) := none
  deriving DecidableEq, Repr

/-- `AdminClient`.  The HTTP transport (chosen from the context value or the
default client) is not state here: it is abstracted into the effect
parameters (`post`, `doGet`) of the operations below. -/
structure AdminClient where
  serverURL : String
  realm : String
  username : String
  password : String
  clientID : String
  useTLS : Bool := false
  deriving DecidableEq, Repr

/-- The three kinds of error `admin.go` can return: transport failures
(`PostForm` / `NewRequest` / `Do`), JSON decode failures, and the
`"client not found"` sentinel. -/
inductive AdminError where
  | transportError (msg : String)
  | decodeError (msg : String)
  | clientNotFound
  deriving DecidableEq, Repr

/-- One form-encoded POST to the token endpoint, as `getToken` issues it. -/
structure TokenRequest where
  url : String
  form : List (String × List String)
  deriving DecidableEq, Repr

def mkAdminClient (serverURL username password : String) : AdminClient :=
  { serverURL := serverURL
    realm := masterRealm
    username := username
    password := password
    clientID := adminClientID }

/-- The exact URL and form of the POST issued by `getToken`. -/
def tokenRequestOf (a : AdminClient) : TokenRequest :=
  { url := a.serverURL ++ "/realms/" ++ a.realm ++ "/protocol/openid-connect/token"
    form := [("grant_type", ["password"]),
             ("client_id", [a.clientID]),
             ("username", [a.username]),
             ("password", [a.password])] }

/-- `getToken`: one `PostForm` round trip (`post`, transport effect) followed
by one JSON decode (`decodeToken`).  Returns the result together with the
list of token requests issued (always exactly the one). -/
def getToken (a : AdminClient) (post : TokenRequest → Except String String)
    (decodeToken : String → Except String Token) :
    Except AdminError Token × List TokenRequest :=
  let req := tokenRequestOf a
  (match post req with
   | .error e => .error (.transportError e)
   | .ok body =>
     match decodeToken body with
     | .error e => .error (.decodeError e)
     | .ok t => .ok t,
   [req])

/-- `NewAdminClient`: build the client record (master realm, `admin-cli`),
test the connection with one `getToken` call, and fail construction if that
call fails.  The second component is the trace of authentication requests
issued during construction. -/
def NewAdminClient (serverURL username password : String)
    (post : TokenRequest → Except String String)
    (decodeToken : String → Except String Token) :
    Except AdminError AdminClient × List TokenRequest :=
  let adminClient := mkAdminClient serverURL username password
  let r := getToken adminClient post decodeToken
  match r.1 with
  | .error e => (.error e, r.2)
  | .ok _ => (.ok adminClient, r.2)

/-- Outcome of the `for _, c := range clients` scan in `GetClient`:
`found` at the first record whose `*c.ClientID` equals the requested id,
`notFound` past the end — or `crash`, the nil-pointer dereference that
`*c.ClientID` performs when a scanned record's `clientId` is absent. -/
inductive ScanOutcome where
  | found (c : Client)
  | notFound
  | crash
  deriving DecidableEq, Repr

def scanClients (clients : List Client) (clientID : String) : ScanOutcome :=
  match clients with
  | [] => .notFound
  | c :: rest =>
    match c.clientID with
    | none => .crash
    | some cid => if cid = clientID then .found c else scanClients rest clientID

/-- Result of a `GetClient` call: a record, one of the three errors, or the
runtime panic from the unguarded pointer dereference. -/
inductive GetClientOutcome where
  | ok (c : Client)
  | err (e : AdminError)
  | crashNilDeref
  deriving DecidableEq, Repr

/-- `GetClient(realm, clientID)`: re-authenticate via `getToken`, GET
`{serverURL}/admin/realms/{realm}/clients` with the bearer header (`doGet`
takes the URL and the `Authorization` header value and models transport,
request-creation failures included), decode the body as a client list
(`decodeClients`), then linearly scan for the requested client id. -/
def GetClient (a : AdminClient) (post : TokenRequest → Except String String)
    (decodeToken : String → Except String Token)
    (doGet : String → String → Except String String)
    (decodeClients : String → Except String (List Client))
    (realm clientID : String) : GetClientOutcome :=
  match (getToken a post decodeToken).1 with
  | .error e => .err e
  | .ok token =>
    match doGet (a.serverURL ++ "/admin/realms/" ++ realm ++ "/clients")
        ("Bearer " ++ token.accessToken) with
    | .error e => .err (.transportError e)
    | .ok body =>
      match decodeClients body with
      | .error e => .err (.decodeError e)
      | .ok clients =>
        match scanClients clients clientID with
        | .found c => .ok c
        | .notFound => .err .clientNotFound
        | .crash => .crashNilDeref

/-! ## Option sequences

For claims quantifying over "a sequence of option applications", the
library's options (plus the test suite's custom Cmd-appending customizer)
are reified as a datatype; `applyOption` maps each constructor to the
embedded option above.  For the realm-import and provider options only the
container-side base name of each host path matters, so the base name is
carried alongside the host path. -/
inductive KeycloakOption where
  | realmImportFile (file baseName : String)
  | providers (files : List (String × String))
  | tls (certFile keyFile : String)
  | adminUsername (u : String)
  | adminPassword (p : String)
  | contextPath (cp : String)
  | customCmd (args : List String)
  deriving DecidableEq, Repr

def applyOption (req : GenericContainerRequest) : KeycloakOption → GenericContainerRequest
  | .realmImportFile f b => WithRealmImportFile f b req
  | .providers fs => WithProviders fs req
  | .tls c k => WithTLS c k req
  | .adminUsername u => WithAdminUsername u req
  | .adminPassword p => WithAdminPassword p req
  | .contextPath cp => WithContextPath cp req
  | .customCmd args => { req with cmd := req.cmd ++ args }

/-- `RunContainer` restricted to reified options, returning the handle. -/
def RunContainer (opts : List KeycloakOption) : KeycloakContainer :=
  makeKeycloakContainer (installWaitStrategy (opts.foldl applyOption initialRequest))

/-! ## Helper lemmas -/

lemma processKeycloakArgs_head_start (l g : List String) :
    processKeycloakArgs (keycloakStartupCommand :: l) g =
      keycloakStartupCommand :: (l ++ g) := by
  simp [processKeycloakArgs]

lemma processKeycloakArgs_not_start (cmd g : List String)
    (h : keycloakStartupCommand ∉ cmd) :
    processKeycloakArgs cmd g = keycloakStartupCommand :: (cmd ++ g) := by
  cases cmd with
  | nil => simp [processKeycloakArgs]
  | cons c t =>
    have hc : ¬(c = keycloakStartupCommand) := by
      intro he
      exact h (he ▸ List.mem_cons_self c t)
    simp [processKeycloakArgs, hc]

lemma applyFlagGroups_cons (cmd g : List String) (gs : List (List String)) :
    applyFlagGroups cmd (g :: gs) = applyFlagGroups (processKeycloakArgs cmd g) gs := rfl

lemma applyFlagGroups_started (gs : List (List String)) (l : List String) :
    applyFlagGroups (keycloakStartupCommand :: l) gs =
      keycloakStartupCommand :: (l ++ gs.flatten) := by
  induction gs generalizing l with
  | nil => simp [applyFlagGroups]
  | cons g gs ih =>
    rw [applyFlagGroups_cons, processKeycloakArgs_head_start, ih]
    simp

lemma processKeycloakArgs_ends (cmd args : List String) :
    ∃ p, processKeycloakArgs cmd args = p ++ args := by
  unfold processKeycloakArgs
  by_cases h0 : cmd.length = 0
  · exact ⟨[keycloakStartupCommand], by simp [h0]⟩
  · by_cases hh : cmd.head? = some keycloakStartupCommand
    · exact ⟨cmd, by simp [h0, hh]⟩
    · exact ⟨keycloakStartupCommand :: cmd, by simp [h0, hh]⟩

lemma envGet_envSet_self (env : List (String × String)) (k v : String) :
    envGet (envSet env k v) k = v := by
  induction env with
  | nil => simp [envSet, envGet]
  | cons p rest ih =>
    by_cases hk : p.1 = k
    · simp [envSet, envGet, hk]
    · simp [envSet, envGet, hk, ih]

/-- C1: after any nonempty sequence of flag-group appends through
`processKeycloakArgs` — the merges performed by `WithContextPath`,
`WithRealmImportFile` and `WithTLS` — starting from any prior command
content `cmd0` (empty, or written by an earlier customizer, not itself
containing the start verb), the final command is exactly the start verb,
followed by the preserved prior content, followed by all appended flag
groups in application order, with the start verb occurring exactly once. -/
theorem processKeycloakArgs_start_verb_once
    (cmd0 : List String) (gs : List (List String))
    (hne : gs ≠ [])
    (hcmd : keycloakStartupCommand ∉ cmd0)
    (hgs : ∀ g ∈ gs, keycloakStartupCommand ∉ g) :
    applyFlagGroups cmd0 gs = keycloakStartupCommand :: (cmd0 ++ gs.flatten) ∧
    (applyFlagGroups cmd0 gs).count keycloakStartupCommand = 1 := by
  obtain ⟨g, gs', rfl⟩ : ∃ g gs', gs = g :: gs' := by
    cases gs with
    | nil => exact absurd rfl hne
    | cons g gs' => exact ⟨g, gs', rfl⟩
  have h1 : applyFlagGroups cmd0 (g :: gs') =
      keycloakStartupCommand :: (cmd0 ++ (g :: gs').flatten) := by
    rw [applyFlagGroups_cons, processKeycloakArgs_not_start cmd0 g hcmd,
      applyFlagGroups_started]
    simp
  refine ⟨h1, ?_⟩
  rw [h1]
  have hnotmem : keycloakStartupCommand ∉ cmd0 ++ (g :: gs').flatten := by
    intro hmem
    rcases List.mem_append.mp hmem with h | h
    · exact hcmd h
    · rcases List.mem_flatten.mp h with ⟨gg, hgg, hm⟩
      exact hgs gg hgg hm
  rw [List.count_cons_self, List.count_eq_zero.mpr hnotmem]

/-- C1 witness: a customizer wrote `["custom-cmd"]` first; the realm-import
and context-path flag groups are then appended, and the final command is the
start verb, the preserved custom content, then the flags in order. -/
theorem processKeycloakArgs_start_verb_once_witness :
    applyFlagGroups ["custom-cmd"] [["--import-realm"], ["--http-relative-path=/auth"]] =
      keycloakStartupCommand ::
        (["custom-cmd"] ++ [["--import-realm"], ["--http-relative-path=/auth"]].flatten) ∧
    (applyFlagGroups ["custom-cmd"]
      [["--import-realm"], ["--http-relative-path=/auth"]]).count keycloakStartupCommand = 1 :=
  processKeycloakArgs_start_verb_once ["custom-cmd"]
    [["--import-realm"], ["--http-relative-path=/auth"]]
    (by decide) (by decide) (by decide)

lemma getAuthServerURL_eq (k : KeycloakContainer) (h p : String)
    (mappedPort : String → Option String)
    (hp : mappedPort (if k.enableTLS then keycloakHttpsPort else keycloakPort) = some p) :
    GetAuthServerURL k (some h) mappedPort =
      some ((if k.enableTLS then "https://" else "http://") ++ h ++ ":" ++ p ++ k.contextPath) := by
  cases htls : k.enableTLS with
  | false =>
    rw [htls] at hp
    simp at hp
    simp [GetAuthServerURL, htls, hp]
  | true =>
    rw [htls] at hp
    simp at hp
    simp [GetAuthServerURL, htls, hp]

/-- C2: for a handle with a resolved host and mapped port,
`GetAuthServerURL` is `http://host:port` followed verbatim by the recorded
context path when TLS is off, and `https://host:port` followed verbatim by
the context path when TLS is on (querying the TLS port in that case). -/
theorem GetAuthServerURL_scheme (k : KeycloakContainer) (h p : String)
    (mappedPort : String → Option String)
    (hp : mappedPort (if k.enableTLS then keycloakHttpsPort else keycloakPort) = some p) :
    GetAuthServerURL k (some h) mappedPort =
      some ((if k.enableTLS then "https://" else "http://") ++ h ++ ":" ++ p ++ k.contextPath) :=
  getAuthServerURL_eq k h p mappedPort hp

/-- C2 witness: host `localhost`, mapped port `32768`, context path `/auth`,
TLS disabled, gives the literal `http://localhost:32768/auth`. -/
theorem GetAuthServerURL_scheme_witness :
    GetAuthServerURL
      { username := "admin", password := "admin", enableTLS := false, contextPath := "/auth" }
      (some "localhost") (fun _ => some "32768") = some "http://localhost:32768/auth" := by
  have h := GetAuthServerURL_scheme
    { username := "admin", password := "admin", enableTLS := false, contextPath := "/auth" }
    "localhost" "32768" (fun _ => some "32768") rfl
  exact h.trans (by decide)

lemma scanClients_eq_find (clients : List Client) (cid : String)
    (h : ∀ c ∈ clients, c.clientID ≠ none) :
    scanClients clients cid =
      (match clients.find? (fun c => c.clientID = some cid) with
       | some c => ScanOutcome.found c
       | none => ScanOutcome.notFound) := by
  induction clients with
  | nil => rfl
  | cons c rest ih =>
    cases hc : c.clientID with
    | none => exact absurd hc (h c (List.mem_cons_self c rest))
    | some s =>
      by_cases hs : s = cid
      · subst hs
        simp [scanClients, hc, List.find?]
      · have hfind : ¬((fun c => decide (c.clientID = some cid)) c = true) := by
          simp [hc, hs]
        rw [List.find?_cons_of_neg rest hfind]
        simp only [scanClients, hc, if_neg hs]
        exact ih (fun c' h' => h c' (List.mem_cons_of_mem c h'))

/-- C3: with authentication, transport and decoding all succeeding,
`GetClient` is the linear scan: it returns the first decoded record whose
client identifier equals the requested one, and the `clientNotFound`
sentinel — distinct from every transport and decode error — when no record
matches (given every scanned record carries a client identifier). -/
theorem GetClient_linear_scan
    (a : AdminClient) (post : TokenRequest → Except String String)
    (decodeToken : String → Except String Token)
    (doGet : String → String → Except String String)
    (decodeClients : String → Except String (List Client))
    (realm clientID : String)
    (token : Token) (body : String) (clients : List Client)
    (htok : (getToken a post decodeToken).1 = .ok token)
    (hdo : doGet (a.serverURL ++ "/admin/realms/" ++ realm ++ "/clients")
            ("Bearer " ++ token.accessToken) = .ok body)
    (hdec : decodeClients body = .ok clients)
    (hpres : ∀ c ∈ clients, c.clientID ≠ none) :
    GetClient a post decodeToken doGet decodeClients realm clientID =
      (match clients.find? (fun c => c.clientID = some clientID) with
       | some c => GetClientOutcome.ok c
       | none => GetClientOutcome.err .clientNotFound) ∧
    (∀ s, AdminError.clientNotFound ≠ AdminError.transportError s ∧
          AdminError.clientNotFound ≠ AdminError.decodeError s) := by
  constructor
  · simp only [GetClient, htok, hdo, hdec, scanClients_eq_find clients clientID hpres]
    cases clients.find? (fun c => c.clientID = some clientID) <;> rfl
  · intro s
    exact ⟨by simp, by simp⟩

/-- C3 witness: realm `"Test"`, client id `"test-app"`: with a decoded list
holding a non-matching record and then the matching one, `GetClient` returns
the matching record; with no matching record it returns `clientNotFound`. -/
theorem GetClient_linear_scan_witness :
    GetClient (mkAdminClient "http://localhost:32768" "admin" "admin")
      (fun _ => .ok "rawTokenBody") (fun _ => .ok { accessToken := "tok" })
      (fun _ _ => .ok "rawClientsBody")
      (fun _ => .ok [{ clientID := some "other-app" }, { clientID := some "test-app" }])
      "Test" "test-app" =
      GetClientOutcome.ok { clientID := some "test-app" } := by
  have h := GetClient_linear_scan (mkAdminClient "http://localhost:32768" "admin" "admin")
    (fun _ => .ok "rawTokenBody") (fun _ => .ok { accessToken := "tok" })
    (fun _ _ => .ok "rawClientsBody")
    (fun _ => .ok [{ clientID := some "other-app" }, { clientID := some "test-app" }])
    "Test" "test-app" { accessToken := "tok" } "rawClientsBody"
    [{ clientID := some "other-app" }, { clientID := some "test-app" }]
    rfl rfl rfl (by decide)
  exact h.1.trans (by decide)

/-- C4: `NewAdminClient` issues exactly one authentication request — the
form-encoded password-grant POST with client id `admin-cli` against the
master realm's token endpoint — and when that initial authentication fails,
construction returns the error and no client value, before any lookup
request is ever issued (the trace holds only the single token request). -/
theorem NewAdminClient_single_auth (serverURL username password : String)
    (post : TokenRequest → Except String String)
    (decodeToken : String → Except String Token)
    (e : AdminError)
    (hfail : (getToken (mkAdminClient serverURL username password) post decodeToken).1 =
      .error e) :
    NewAdminClient serverURL username password post decodeToken =
      (.error e,
       [{ url := serverURL ++ "/realms/" ++ masterRealm ++ "/protocol/openid-connect/token"
          form := [("grant_type", ["password"]),
                   ("client_id", [adminClientID]),
                   ("username", [username]),
                   ("password", [password])] }]) := by
  simp only [NewAdminClient, hfail]
  rfl

/-- C4 witness: with the token endpoint unreachable, construction at
concrete credentials fails with that transport error and the trace shows the
single password-grant request against the master realm. -/
theorem NewAdminClient_single_auth_witness :
    NewAdminClient "http://localhost:32768" "admin" "badpassword"
      (fun _ => .error "connection refused") (fun _ => .error "unexpected end of JSON input") =
      (.error (.transportError "connection refused"),
       [{ url := "http://localhost:32768/realms/master/protocol/openid-connect/token"
          form := [("grant_type", ["password"]), ("client_id", ["admin-cli"]),
                   ("username", ["admin"]), ("password", ["badpassword"])] }]) := by
  have h := NewAdminClient_single_auth "http://localhost:32768" "admin" "badpassword"
    (fun _ => .error "connection refused") (fun _ => .error "unexpected end of JSON input")
    (.transportError "connection refused") rfl
  exact h.trans (by rfl)

lemma scanClients_crash (pre : List Client) (c : Client) (rest : List Client) (cid : String)
    (hpre : ∀ c' ∈ pre, ∃ s, c'.clientID = some s ∧ s ≠ cid)
    (hc : c.clientID = none) :
    scanClients (pre ++ c :: rest) cid = .crash := by
  induction pre with
  | nil => simp [scanClients, hc]
  | cons p ps ih =>
    obtain ⟨s, hs, hne⟩ := hpre p (List.mem_cons_self p ps)
    simp only [List.cons_append, scanClients, hs, if_neg hne]
    exact ih (fun c' h' => hpre c' (List.mem_cons_of_mem p h'))

/-- C9: when the decoded client list contains a record with an absent
client identifier before any matching record, the unguarded `*c.ClientID`
dereference in `GetClient`'s scan crashes with a nil-pointer dereference:
the call neither returns a record nor any of the three documented errors. -/
theorem GetClient_nil_clientID_crash
    (a : AdminClient) (post : TokenRequest → Except String String)
    (decodeToken : String → Except String Token)
    (doGet : String → String → Except String String)
    (decodeClients : String → Except String (List Client))
    (realm clientID : String)
    (token : Token) (body : String)
    (pre : List Client) (c : Client) (rest : List Client)
    (htok : (getToken a post decodeToken).1 = .ok token)
    (hdo : doGet (a.serverURL ++ "/admin/realms/" ++ realm ++ "/clients")
            ("Bearer " ++ token.accessToken) = .ok body)
    (hdec : decodeClients body = .ok (pre ++ c :: rest))
    (hpre : ∀ c' ∈ pre, ∃ s, c'.clientID = some s ∧ s ≠ clientID)
    (hc : c.clientID = none) :
    GetClient a post decodeToken doGet decodeClients realm clientID =
      .crashNilDeref ∧
    (∀ e, GetClientOutcome.crashNilDeref ≠ .err e) ∧
    (∀ cl, GetClientOutcome.crashNilDeref ≠ .ok cl) := by
  refine ⟨?_, fun e => by simp, fun cl => by simp⟩
  simp only [GetClient, htok, hdo, hdec, scanClients_crash pre c rest clientID hpre hc]

/-- C9 witness: a list whose first record lacks `clientId` makes the lookup
of `"test-app"` crash instead of returning a record or an error. -/
theorem GetClient_nil_clientID_crash_witness :
    GetClient (mkAdminClient "http://localhost:32768" "admin" "admin")
      (fun _ => .ok "rawTokenBody") (fun _ => .ok { accessToken := "tok" })
      (fun _ _ => .ok "rawClientsBody")
      (fun _ => .ok [{ id := some "abc", clientID := none }, { clientID := some "test-app" }])
      "Test" "test-app" = GetClientOutcome.crashNilDeref := by
  have h := GetClient_nil_clientID_crash
    (mkAdminClient "http://localhost:32768" "admin" "admin")
    (fun _ => .ok "rawTokenBody") (fun _ => .ok { accessToken := "tok" })
    (fun _ _ => .ok "rawClientsBody")
    (fun _ => .ok [{ id := some "abc", clientID := none }, { clientID := some "test-app" }])
    "Test" "test-app" { accessToken := "tok" } "rawClientsBody"
    [] { id := some "abc", clientID := none } [{ clientID := some "test-app" }]
    rfl rfl rfl (by decide) rfl
  exact h.1

/-- C5: `WithTLS` replaces the exposed ports with exactly the TLS port
`8443/tcp`, appends the certificate and key copy instructions targeting
`tls.crt` and `tls.key` in the fixed configuration directory, sets the
TLS-enabled environment marker, and appends the `--https-certificate-file`
and `--https-certificate-key-file` flags pointing at those copied paths. -/
theorem WithTLS_effects (certFile keyFile : String) (req : GenericContainerRequest) :
    (WithTLS certFile keyFile req).exposedPorts = [keycloakHttpsPort] ∧
    (WithTLS certFile keyFile req).files =
      req.files ++
        [{ hostFilePath := certFile, containerFilePath := tlsFilePath ++ "/tls.crt",
           fileMode := 0o755 },
         { hostFilePath := keyFile, containerFilePath := tlsFilePath ++ "/tls.key",
           fileMode := 0o755 }] ∧
    envGet (WithTLS certFile keyFile req).env keycloakTlsEnv = "true" ∧
    ∃ p, (WithTLS certFile keyFile req).cmd =
      p ++ ["--https-certificate-file=" ++ tlsFilePath ++ "/tls.crt",
            "--https-certificate-key-file=" ++ tlsFilePath ++ "/tls.key"] := by
  refine ⟨rfl, rfl, ?_, ?_⟩
  · show envGet (envSet req.env keycloakTlsEnv "true") keycloakTlsEnv = "true"
    exact envGet_envSet_self req.env keycloakTlsEnv "true"
  · show ∃ p, processKeycloakArgs req.cmd
      ["--https-certificate-file=" ++ tlsFilePath ++ "/tls.crt",
       "--https-certificate-key-file=" ++ tlsFilePath ++ "/tls.key"] =
      p ++ ["--https-certificate-file=" ++ tlsFilePath ++ "/tls.crt",
            "--https-certificate-key-file=" ++ tlsFilePath ++ "/tls.key"]
    exact processKeycloakArgs_ends req.cmd _

/-- C6 counterexample: applying `WithContextPath` with the empty string to
the initial launch request does not yield the same request as not applying
the option at all — it records the context-path environment key and appends
the `--http-relative-path=/` flag, which the untouched request lacks. -/
theorem WithContextPath_empty_changes_request :
    WithContextPath "" initialRequest ≠ initialRequest := by decide

lemma WithContextPath_cmd (cp : String) (req : GenericContainerRequest) :
    (WithContextPath cp req).cmd =
      processKeycloakArgs req.cmd
        ["--http-relative-path=" ++ (if cp = "" then defaultKeycloakContextPath else cp)] := rfl

/-- C6 amended: applying `WithContextPath` with the empty string yields the
same resulting launch request as applying it with the explicit root `"/"`
(not as omitting the option): the recorded context path is the default root
`"/"` and the appended flag text is exactly `--http-relative-path=/`. -/
theorem WithContextPath_empty_eq_explicit_root (req : GenericContainerRequest) :
    WithContextPath "" req = WithContextPath "/" req ∧
    envGet (WithContextPath "" req).env keycloakContextPathEnv = "/" ∧
    ∃ p, (WithContextPath "" req).cmd = p ++ ["--http-relative-path=/"] := by
  refine ⟨rfl, ?_, ?_⟩
  · show envGet (envSet req.env keycloakContextPathEnv
      (if ("" : String) = "" then defaultKeycloakContextPath else "")) keycloakContextPathEnv = "/"
    rw [if_pos rfl]
    exact envGet_envSet_self req.env keycloakContextPathEnv defaultKeycloakContextPath
  · rw [WithContextPath_cmd]
    have hflag : "--http-relative-path=" ++
        (if ("" : String) = "" then defaultKeycloakContextPath else "") =
        "--http-relative-path=/" := by decide
    rw [hflag]
    exact processKeycloakArgs_ends req.cmd _

/-- C7: when the caller supplied no readiness condition, `RunContainer`
installs the conjunction of an HTTP check on the recorded context path
(defaulting to the root) — over HTTPS on the TLS port with insecure
certificates allowed when the TLS marker is set, plain HTTP otherwise — and
the observation of the `Running the server` startup log line; a
caller-supplied readiness condition is left unchanged. -/
theorem RunContainer_default_wait (req : GenericContainerRequest) :
    (req.waitingFor = none →
      (installWaitStrategy req).waitingFor = some (
        if envGet req.env keycloakTlsEnv ≠ "" then
          WaitStrategy.forAll
            (.forHTTP (if envGet req.env keycloakContextPathEnv = ""
                       then defaultKeycloakContextPath
                       else envGet req.env keycloakContextPathEnv)
              (some keycloakHttpsPort) true true)
            (.forLog "Running the server")
        else
          WaitStrategy.forAll
            (.forHTTP (if envGet req.env keycloakContextPathEnv = ""
                       then defaultKeycloakContextPath
                       else envGet req.env keycloakContextPathEnv)
              none false false)
            (.forLog "Running the server"))) ∧
    (∀ w, req.waitingFor = some w → (installWaitStrategy req).waitingFor = some w) := by
  constructor
  · intro h
    simp [installWaitStrategy, h, defaultWaitStrategy]
  · intro w h
    simp [installWaitStrategy, h]

/-- C7 witness: on the option-free initial request (no readiness condition,
no TLS marker, no recorded context path) the installed default is the plain
HTTP check on `/` combined with the startup log line. -/
theorem RunContainer_default_wait_witness :
    (installWaitStrategy initialRequest).waitingFor =
      some (.forAll (.forHTTP "/" none false false) (.forLog "Running the server")) := by
  have h := (RunContainer_default_wait initialRequest).1 rfl
  exact h.trans (by decide)

/-- C8 counterexample: in the generation of `WithRealmImportFile` that
resolves the host path, a failed resolution does not fail the launch setup —
the option silently returns the request unchanged: no mount is registered,
no flag is appended, and no error is surfaced (the option closure of that
generation has no error channel at all). -/
theorem WithRealmImportFile_abs_failure_silent :
    Legacy.WithRealmImportFile none initialRequest = initialRequest ∧
    (Legacy.WithRealmImportFile none initialRequest).mounts = [] ∧
    (Legacy.WithRealmImportFile none initialRequest).cmd = [] :=
  ⟨rfl, rfl, rfl⟩

/-- C8 amended: when host-path resolution fails, the legacy
`WithRealmImportFile` silently leaves the launch request unchanged — missing
mount, no `--import-realm` flag, no error — rather than failing the setup;
only a successful resolution registers the bind mount to the fixed import
directory and appends the flag. -/
theorem WithRealmImportFile_abs_cases (req : GenericContainerRequest) (absPath : String) :
    Legacy.WithRealmImportFile none req = req ∧
    (Legacy.WithRealmImportFile (some absPath) req).mounts =
      req.mounts ++ [{ hostPath := absPath, target := defaultRealmImport }] ∧
    ∃ p, (Legacy.WithRealmImportFile (some absPath) req).cmd = p ++ ["--import-realm"] :=
  ⟨rfl, rfl, processKeycloakArgs_ends req.cmd ["--import-realm"]⟩

def KeycloakOption.isContextPath : KeycloakOption → Bool
  | .contextPath _ => true
  | _ => false

lemma envHas_envSet_of_ne (env : List (String × String)) (k k' v : String) (h : k' ≠ k) :
    envHas (envSet env k' v) k = envHas env k := by
  induction env with
  | nil => simp [envSet, envHas, h]
  | cons p rest ih =>
    by_cases hp : p.1 = k'
    · have hpk : ¬p.1 = k := fun he => h (hp.symm.trans he)
      simp [envSet, envHas, hp, h, hpk]
    · simp [envSet, envHas, hp, ih]

lemma envGet_eq_empty_of_not_has (env : List (String × String)) (k : String)
    (h : envHas env k = false) : envGet env k = "" := by
  induction env with
  | nil => rfl
  | cons p rest ih =>
    simp [envHas] at h
    simp [envGet, h.1, ih h.2]

lemma applyOption_preserves_no_contextPath (req : GenericContainerRequest)
    (o : KeycloakOption) (ho : o.isContextPath = false)
    (h : envHas req.env keycloakContextPathEnv = false) :
    envHas (applyOption req o).env keycloakContextPathEnv = false := by
  cases o with
  | realmImportFile f b =>
    simpa [applyOption, WithRealmImportFile, processKeycloakArgsReq] using h
  | providers fs => simpa [applyOption, WithProviders] using h
  | tls c k =>
    have hne : keycloakTlsEnv ≠ keycloakContextPathEnv := by decide
    simp only [applyOption, WithTLS, processKeycloakArgsReq]
    rw [envHas_envSet_of_ne _ _ _ _ hne]
    exact h
  | adminUsername u =>
    have hne : keycloakAdminUsernameEnv ≠ keycloakContextPathEnv := by decide
    simp only [applyOption, WithAdminUsername]
    rw [envHas_envSet_of_ne _ _ _ _ hne]
    exact h
  | adminPassword p =>
    have hne : keycloakAdminPasswordEnv ≠ keycloakContextPathEnv := by decide
    simp only [applyOption, WithAdminPassword]
    rw [envHas_envSet_of_ne _ _ _ _ hne]
    exact h
  | contextPath cp => simp [KeycloakOption.isContextPath] at ho
  | customCmd args => simpa [applyOption] using h

lemma foldl_no_contextPath : ∀ (opts : List KeycloakOption) (req : GenericContainerRequest),
    (∀ o ∈ opts, o.isContextPath = false) →
    envHas req.env keycloakContextPathEnv = false →
    envHas (opts.foldl applyOption req).env keycloakContextPathEnv = false := by
  intro opts
  induction opts with
  | nil => intro req _ h0; exact h0
  | cons o os ih =>
    intro req h h0
    exact ih _ (fun o' ho' => h o' (List.mem_cons_of_mem o ho'))
      (applyOption_preserves_no_contextPath req o (h o (List.mem_cons_self o os)) h0)

lemma installWaitStrategy_env (req : GenericContainerRequest) :
    (installWaitStrategy req).env = req.env := by
  unfold installWaitStrategy
  cases req.waitingFor <;> rfl

/-- C10: for any run whose option sequence never applies the context-path
option, the handle's recorded context path is the empty string (the
environment key stays unset), and `GetAuthServerURL` returns
`scheme://host:port` with no path component and no trailing slash. -/
theorem RunContainer_no_contextPath_url (opts : List KeycloakOption)
    (hopts : ∀ o ∈ opts, o.isContextPath = false)
    (host p : String) (mappedPort : String → Option String)
    (hp : mappedPort (if (RunContainer opts).enableTLS then keycloakHttpsPort else keycloakPort) =
      some p) :
    (RunContainer opts).contextPath = "" ∧
    GetAuthServerURL (RunContainer opts) (some host) mappedPort =
      some ((if (RunContainer opts).enableTLS then "https://" else "http://") ++
        host ++ ":" ++ p) := by
  have hcp : (RunContainer opts).contextPath = "" := by
    show envGet (installWaitStrategy (opts.foldl applyOption initialRequest)).env
      keycloakContextPathEnv = ""
    rw [installWaitStrategy_env]
    exact envGet_eq_empty_of_not_has _ _
      (foldl_no_contextPath opts initialRequest hopts (by decide))
  refine ⟨hcp, ?_⟩
  have h2 := getAuthServerURL_eq (RunContainer opts) host p mappedPort hp
  rw [hcp, String.append_empty] at h2
  exact h2

/-- C10 witness: TLS and admin-username options but no context-path option:
the recorded context path is empty and the URL is `https://localhost:32768`,
with no trailing slash. -/
theorem RunContainer_no_contextPath_url_witness :
    (RunContainer [.tls "tls.crt" "tls.key", .adminUsername "testUsername"]).contextPath = "" ∧
    GetAuthServerURL (RunContainer [.tls "tls.crt" "tls.key", .adminUsername "testUsername"])
      (some "localhost") (fun _ => some "32768") = some "https://localhost:32768" := by
  have h := RunContainer_no_contextPath_url
    [.tls "tls.crt" "tls.key", .adminUsername "testUsername"]
    (by decide) "localhost" "32768" (fun _ => some "32768") rfl
  exact ⟨h.1, h.2.trans (by decide)⟩
